import Mathlib

/-!
Verification of the mail forwarder (`src/forward.ts`).

The development shallowly embeds the code of `src/forward.ts`:

* JavaScript strings are Lean `String`s; operations the code uses
  (`split`, `trim`, `toLowerCase`) are embedded as structurally
  recursive functions over `List Char` so that they evaluate in the
  kernel.  Case folding is ASCII (`Char.toLower`), matching the
  configuration values the program works with.
* JavaScript's falsiness on optional strings (`undefined` or `""` are
  falsy) is embedded by `jsTruthy` / `jsOrStr`.
* The asynchronous parts (one processing attempt per message, the
  daemon's polling loop and its shutdown handler) are embedded as pure
  functions from the outcomes of the external collaborators (IMAP
  client, SMTP transport, MIME parser) to the trace of operations the
  code performs, and as an event-driven step function over the
  scheduler state, reflecting Node's single-threaded event loop.
-/

namespace MailForwarder

/-- JavaScript `String.prototype.split` with a single-character
separator, over `List Char`: `"" → [""]`, separators at the ends and
adjacent separators produce empty segments.  Embeds
`fromAddress.split('@')` and `ALLOWED_SENDER_DOMAINS.split(',')`
(src/forward.ts:92,101). -/
def jsSplitChars (sep : Char) : List Char → List (List Char)
  | [] => [[]]
  | c :: rest =>
    let r := jsSplitChars sep rest
    if c = sep then
      [] :: r
    else
      match r with
      | [] => [[c]]
      | h :: t => (c :: h) :: t

/-- `jsSplitChars` never returns the empty list of segments. -/
theorem jsSplitChars_ne_nil (sep : Char) (l : List Char) :
    jsSplitChars sep l ≠ [] := by
  cases l with
  | nil => simp [jsSplitChars]
  | cons c rest =>
    simp only [jsSplitChars]
    split
    · simp
    · cases h : jsSplitChars sep rest <;> simp

/-- JavaScript `split` on a whole string, returning strings. -/
def jsSplit (sep : Char) (s : String) : List String :=
  (jsSplitChars sep s.toList).map (fun l => String.mk l)

/-- JavaScript `String.prototype.trim`: drop whitespace from both ends. -/
def jsTrim (s : String) : String :=
  String.mk
    (((s.toList.dropWhile Char.isWhitespace).reverse.dropWhile
        Char.isWhitespace).reverse)

/-- JavaScript `String.prototype.toLowerCase` (ASCII case folding). -/
def jsToLower (s : String) : String :=
  String.mk (s.toList.map Char.toLower)

/-- Truthiness of an optional JavaScript string: `undefined` and the
empty string are falsy. -/
def jsTruthy : Option String → Bool
  | none => false
  | some s => s ≠ ""

/-- JavaScript `a || b` where `a` is an optional string and `b` a
string: returns `b` when `a` is falsy. -/
def jsOrStr (a : Option String) (b : String) : String :=
  match a with
  | none => b
  | some s => if s = "" then b else s

/-- The allow-list parsing inlined in `shouldForwardEmail`
(src/forward.ts:100-103): split the configured value on commas, trim
and lower-case every entry, drop entries that became empty. -/
def parseAllowedDomains (cfg : String) : List String :=
  ((jsSplit ',' cfg).map (fun d => jsToLower (jsTrim d))).filter
    (fun d => d.length > 0)

/-- One attachment as carried on the object handed to `forwardMail`
(src/forward.ts:181): file name (possibly absent) and raw content
bytes. -/
structure Attachment where
  filename : Option String
  content : List Nat
deriving DecidableEq, Repr

/-- An attachment as produced by the MIME parser (`mailparser`): the
code projects it to `filename` and `content` (src/forward.ts:181); the
parser also reports a content type, which the code drops. -/
structure SrcAttachment where
  filename : Option String
  content : List Nat
  contentType : Option String
deriving DecidableEq, Repr

/-- The fields of a `simpleParser` result that `src/forward.ts` reads:
`from?.value?.[0]?.address`, `from?.text`, `subject`, `text`, `html`
and `attachments`.  Optional fields model `undefined` (for `html`,
`mailparser`'s `false`) as `none`.  `toRecipients` records the original
recipient list, which the code never reads. -/
structure ParsedMail where
  fromValueAddress : Option String
  fromText : Option String
  subject : Option String
  text : Option String
  html : Option String
  attachments : List SrcAttachment
  toRecipients : List String
deriving DecidableEq, Repr

/-- `email.from?.value?.[0]?.address || email.from?.text || ''`
(src/forward.ts:85). -/
def fromAddressOf (m : ParsedMail) : String :=
  jsOrStr m.fromValueAddress (jsOrStr m.fromText "")

/-- The part of `shouldForwardEmail` from the sender address on
(src/forward.ts:85-111): reject an empty address, extract
`split('@')[1]?.toLowerCase()`, reject when that is falsy, otherwise
test membership in the parsed allow-list. -/
def shouldForwardFrom (cfg : String) (fromAddress : String) : Bool :=
  if fromAddress = "" then false
  else
    match ((jsSplit '@' fromAddress).get? 1).map jsToLower with
    | none => false
    | some senderDomain =>
      if senderDomain = "" then false
      else (parseAllowedDomains cfg).contains senderDomain

/-- `shouldForwardEmail` (src/forward.ts:77-112).  The first guard is
`if (!ALLOWED_SENDER_DOMAINS) return true`, so both an unset variable
and one set to the empty string disable filtering. -/
def shouldForwardEmail (allowedSenderDomains : Option String)
    (email : ParsedMail) : Bool :=
  match allowedSenderDomains with
  | none => true
  | some cfg =>
    if cfg = "" then true
    else shouldForwardFrom cfg (fromAddressOf email)

/-- A `ParsedMail` whose sender information is exactly the given
address (`from.value[0].address`), used to state claims that quantify
over a sender address. -/
def mkFromAddr (addr : String) : ParsedMail :=
  { fromValueAddress := some addr
    fromText := none
    subject := none
    text := none
    html := none
    attachments := []
    toRecipients := [] }

theorem fromAddressOf_mkFromAddr (addr : String) :
    fromAddressOf (mkFromAddr addr) = addr := by
  by_cases h : addr = "" <;> simp [fromAddressOf, mkFromAddr, jsOrStr, h]

/-- The argument object built by `processUnseen` before calling
`forwardMail` (src/forward.ts:177-182): `parsed.subject || '(no
subject)'`, `parsed.text || ''`, `parsed.html || undefined`, and the
attachments projected to `filename`/`content`. -/
structure EmailArg where
  subject : String
  text : String
  html : Option String
  attachments : List Attachment
deriving DecidableEq, Repr

def buildEmailArg (parsed : ParsedMail) : EmailArg :=
  { subject := jsOrStr parsed.subject "(no subject)"
    text := jsOrStr parsed.text ""
    html :=
      match parsed.html with
      | none => none
      | some h => if h = "" then none else some h
    attachments := parsed.attachments.map
      (fun a => { filename := a.filename, content := a.content }) }

/-- The `mailOptions` object handed to `transporter.sendMail` by
`forwardMail` (src/forward.ts:125-132): the configured `FORWARD_FROM`
and `FORWARD_TO` plus the fields of its argument.  (`fromAddr` and
`toAddr` embed the `from` and `to` fields, whose names are reserved in
Lean.) -/
structure MailOptions where
  fromAddr : String
  toAddr : String
  subject : String
  text : String
  html : Option String
  attachments : List Attachment
deriving DecidableEq, Repr

def buildMailOptions (forwardFrom forwardTo : String) (email : EmailArg) :
    MailOptions :=
  { fromAddr := forwardFrom
    toAddr := forwardTo
    subject := email.subject
    text := email.text
    html := email.html
    attachments := email.attachments }

/-- The outbound message the relay receives for a parsed source
message: `processUnseen`'s argument construction followed by
`forwardMail`'s `mailOptions`. -/
def outboundOf (forwardFrom forwardTo : String) (parsed : ParsedMail) :
    MailOptions :=
  buildMailOptions forwardFrom forwardTo (buildEmailArg parsed)

/-- The configuration the processing loop reads:
`ALLOWED_SENDER_DOMAINS` (optional), `FORWARD_FROM`, `FORWARD_TO`. -/
structure Config where
  allowedSenderDomains : Option String
  forwardFrom : String
  forwardTo : String

/-- Outcomes of the external calls one processing attempt for one
message can make: whether `simpleParser` succeeds and with what result,
and whether `sendMail`, `messageDelete` and `messageFlagsAdd` succeed
when invoked. -/
structure Oracle where
  parsed : Option ParsedMail
  sendOk : Bool
  deleteOk : Bool
  flagOk : Bool

/-- An operation the per-message loop body invokes on an external
collaborator, together with the outcome the collaborator reported. -/
inductive MailboxEvent where
  | sent (mail : MailOptions) (ok : Bool)
  | flagsAdd (uid : Nat) (ok : Bool)
  | deleted (uid : Nat) (ok : Bool)
deriving DecidableEq, Repr

/-- The loop body of `processUnseen` for one message
(src/forward.ts:160-192), as the trace of external operations it
invokes.  The whole body is wrapped in one `try`/`catch` whose handler
only logs, so: a parser error performs nothing; a filtered message gets
one `messageFlagsAdd` (a failure there is caught); a qualifying message
gets one `sendMail`, and only when that reported success one
`messageDelete` (a send failure is re-thrown by `forwardMail` and
caught here, skipping the delete; a delete failure is caught). -/
def processMessage (cfg : Config) (uid : Nat) (o : Oracle) :
    List MailboxEvent :=
  match o.parsed with
  | none => []
  | some parsed =>
    if shouldForwardEmail cfg.allowedSenderDomains parsed then
      if o.sendOk then
        [MailboxEvent.sent (outboundOf cfg.forwardFrom cfg.forwardTo parsed) true,
         MailboxEvent.deleted uid o.deleteOk]
      else
        [MailboxEvent.sent (outboundOf cfg.forwardFrom cfg.forwardTo parsed) false]
    else
      [MailboxEvent.flagsAdd uid o.flagOk]

/-- The mailbox-side state of one message: whether it is still present
and whether its `\Seen` flag is set. -/
structure MsgState where
  present : Bool
  seen : Bool
deriving DecidableEq, Repr

/-- An unseen message as a pass finds it. -/
def initMsgState : MsgState := { present := true, seen := false }

/-- Effect of one invoked operation on the message's mailbox state: a
send touches nothing, a successful `messageFlagsAdd` sets the flag, a
successful `messageDelete` removes the message; failed operations leave
the state unchanged. -/
def applyEvent (s : MsgState) : MailboxEvent → MsgState
  | MailboxEvent.sent _ _ => s
  | MailboxEvent.flagsAdd _ ok => if ok then { s with seen := true } else s
  | MailboxEvent.deleted _ ok => if ok then { s with present := false } else s

/-- The message's mailbox state after one processing attempt. -/
def msgStateAfter (cfg : Config) (uid : Nat) (o : Oracle) : MsgState :=
  (processMessage cfg uid o).foldl applyEvent initMsgState

/-- One attempt applied to an arbitrary starting state (used to iterate
passes). -/
def attemptStep (cfg : Config) (uid : Nat) (o : Oracle) (s : MsgState) :
    MsgState :=
  (processMessage cfg uid o).foldl applyEvent s

/-! ### The daemon scheduler (src/forward.ts:228-258)

In daemon mode `main` installs `setInterval(poll, POLL_INTERVAL_MS)`
where `poll` checks a module-level `busy` flag: if set it logs
"Previous poll still running, skipping..." and returns; otherwise it
sets `busy`, awaits `processUnseen`, and clears `busy` in a `finally`.
`SIGTERM`/`SIGINT` run `shutdown`, which clears the interval, attempts
`client.logout()` (errors swallowed) and calls `process.exit(code)`.
Node's event loop is single threaded: the `busy` test-and-set runs
without interruption, while each `await` is a point where a timer
callback or a signal handler may run.  The model below is the induced
event system: `timerFire` is the interval callback running,
`passComplete` the awaited `processUnseen` resolving, `sigterm` a
termination signal's handler running. -/

structure DaemonState where
  busy : Bool
  running : Nat
  dropped : Nat
  completed : Nat
  timerActive : Bool
  exited : Option Nat
deriving DecidableEq, Repr

def daemonInit : DaemonState :=
  { busy := false, running := 0, dropped := 0, completed := 0,
    timerActive := true, exited := none }

inductive DaemonEvent where
  | timerFire
  | passComplete
  | sigterm
deriving DecidableEq, Repr

/-- One event-loop callback.  After `process.exit` nothing runs any
more; a cleared interval no longer fires; `poll` with `busy` set only
counts a dropped trigger; otherwise it sets `busy` and starts a pass;
a completing pass clears `busy` (the `finally`); a signal handler
clears the interval and exits with status 0. -/
def daemonStep (s : DaemonState) : DaemonEvent → DaemonState
  | DaemonEvent.timerFire =>
    if s.exited.isSome then s
    else if ¬ s.timerActive then s
    else if s.busy then { s with dropped := s.dropped + 1 }
    else { s with busy := true, running := s.running + 1 }
  | DaemonEvent.passComplete =>
    if s.exited.isSome then s
    else if s.running = 0 then s
    else { s with busy := false, running := s.running - 1,
                  completed := s.completed + 1 }
  | DaemonEvent.sigterm =>
    if s.exited.isSome then s
    else { s with timerActive := false, exited := some 0 }

/-- The scheduler state reached from startup by a sequence of
event-loop callbacks. -/
def daemonRun (es : List DaemonEvent) : DaemonState :=
  es.foldl daemonStep daemonInit

/-! ### Startup validation (src/forward.ts:22-54, 197-223)

`main` calls `validateEnvironmentVariables()` first, before
constructing the `ImapFlow` client or opening any connection; that
function filters `requiredVars` by JavaScript falsiness of
`process.env[name]`, and when the resulting list is non-empty prints
"Missing required environment variables:" with all of them joined and
calls `process.exit(1)`. -/

def requiredVars : List String :=
  ["IMAP_HOST", "IMAP_PORT", "IMAP_USER", "IMAP_PASSWORD",
   "SMTP_HOST", "SMTP_PORT", "SMTP_USER", "SMTP_PASSWORD",
   "FORWARD_TO", "FORWARD_FROM"]

def missingVars (env : String → Option String) : List String :=
  requiredVars.filter (fun v => ¬ jsTruthy (env v))

inductive StartupResult where
  | exitBeforeConnect (code : Nat) (diagnosticMissing : List String)
  | proceedToConnect
deriving DecidableEq, Repr

def startup (env : String → Option String) : StartupResult :=
  if (missingVars env).isEmpty then StartupResult.proceedToConnect
  else StartupResult.exitBeforeConnect 1 (missingVars env)

/-! ### Spec-side definitions for the sender filter claims -/

/-- Written from the claim's words: the substring of the sender address
after the **last** `'@'`, or `none` when the address contains no `'@'`. -/
def afterLastAt (l : List Char) : Option (List Char) :=
  if '@' ∈ l then
    some ((l.reverse.takeWhile (fun c => c ≠ '@')).reverse)
  else none

/-- Written from the claim's words (claim C4): absent allow-list accepts
everything; an empty sender address, or one with no `'@'` separator
followed by a non-empty suffix, is rejected; otherwise accept iff the
case-folded substring after the **last** `'@'` is a member of the
allow-list. -/
def shouldForward_claimC4 (senderAddress : String)
    (allowList : Option (List String)) : Bool :=
  match allowList with
  | none => true
  | some dl =>
    if senderAddress = "" then false
    else
      match afterLastAt senderAddress.toList with
      | none => false
      | some [] => false
      | some (c :: cs) => dl.contains (String.mk ((c :: cs).map Char.toLower))

/-- The characters strictly between the first `'@'` and the following
`'@'` (or the end of the string); `none` when there is no `'@'`. -/
def firstAtSegment (l : List Char) : Option (List Char) :=
  match l.dropWhile (fun c => c ≠ '@') with
  | [] => none
  | _ :: rest => some (rest.takeWhile (fun c => c ≠ '@'))

/-- The amended claim C4, written independently of the code: an absent
or empty-string allow-list setting accepts everything; otherwise the
sender is accepted iff its address has a non-empty segment after the
**first** `'@'` (up to the next `'@'`) whose case-folded form is a
member of the parsed allow-list. -/
def shouldForward_amendedC4 (allowList : Option String)
    (senderAddress : String) : Bool :=
  match allowList with
  | none => true
  | some cfg =>
    if cfg = "" then true
    else
      match firstAtSegment senderAddress.toList with
      | none => false
      | some [] => false
      | some (c :: cs) =>
        (parseAllowedDomains cfg).contains (String.mk ((c :: cs).map Char.toLower))

theorem jsSplitChars_head? (sep : Char) (l : List Char) :
    (jsSplitChars sep l).head? = some (l.takeWhile (fun c => c ≠ sep)) := by
  induction l with
  | nil => rfl
  | cons c rest ih =>
    simp only [jsSplitChars]
    by_cases h : c = sep
    · simp [h, List.takeWhile]
    · simp only [if_neg h]
      cases hr : jsSplitChars sep rest with
      | nil => exact absurd hr (jsSplitChars_ne_nil sep rest)
      | cons hd tl =>
        rw [hr] at ih
        simp only [List.head?, Option.some_inj] at ih
        subst ih
        simp [List.takeWhile, h, decide_not]

theorem jsSplitChars_get?_one (sep : Char) (l : List Char) :
    (jsSplitChars sep l).get? 1 =
      match l.dropWhile (fun c => c ≠ sep) with
      | [] => none
      | _ :: rest => some (rest.takeWhile (fun c => c ≠ sep)) := by
  induction l with
  | nil => rfl
  | cons c rest ih =>
    simp only [jsSplitChars]
    by_cases h : c = sep
    · simp only [if_pos h, List.get?]
      have hh := jsSplitChars_head? sep rest
      have h0 : (jsSplitChars sep rest).get? 0 = (jsSplitChars sep rest).head? := by
        cases jsSplitChars sep rest <;> rfl
      rw [h0, hh]
      simp [List.dropWhile, h]
    · simp only [if_neg h]
      cases hr : jsSplitChars sep rest with
      | nil => exact absurd hr (jsSplitChars_ne_nil sep rest)
      | cons hd tl =>
        rw [hr] at ih
        have hd2 : List.dropWhile (fun c => (c ≠ sep : Bool)) (c :: rest) =
            List.dropWhile (fun c => (c ≠ sep : Bool)) rest := by
          simp [List.dropWhile, h]
        rw [← hd2] at ih
        simpa [List.get?] using ih
theorem toList_mk (l : List Char) : (String.mk l).toList = l := rfl

theorem jsSplit_get?_one_at (addr : String) :
    (jsSplit '@' addr).get? 1 = (firstAtSegment addr.toList).map String.mk := by
  simp only [jsSplit, List.get?_map, jsSplitChars_get?_one, firstAtSegment]

theorem shouldForwardFrom_eq_amended (cfg : String) (addr : String)
    (hcfg : cfg ≠ "") :
    shouldForwardFrom cfg addr = shouldForward_amendedC4 (some cfg) addr := by
  simp only [shouldForward_amendedC4, if_neg hcfg]
  by_cases haddr : addr = ""
  · subst haddr; rfl
  · simp only [shouldForwardFrom, if_neg haddr, jsSplit_get?_one_at]
    cases hfa : firstAtSegment addr.toList with
    | none => rfl
    | some seg =>
      cases seg with
      | nil => simp [jsToLower]
      | cons b bs =>
        simp only [Option.map_some, Option.map_map]
        simp [jsToLower, String.ext_iff]
def sampleCfg : Config :=
  { allowedSenderDomains := none
    forwardFrom := "fwd@example.org"
    forwardTo := "dest@example.org" }

def sampleParsed : ParsedMail :=
  { fromValueAddress := some "alice@trusted.com"
    fromText := none
    subject := some "Hello"
    text := some "Hi there"
    html := none
    attachments := [{ filename := some "a.txt", content := [104, 105],
                      contentType := some "text/plain" }]
    toRecipients := ["orig@example.net"] }

/-- Claim C1: for every message processed in a pass, the
`messageDelete` operation is invoked only after the relay send for
that exact message has reported success in the same processing attempt
(it occurs later in the attempt's operation trace), and no seen-mark is
recorded for a message whose deletion was reached; in particular no
delete ever occurs when the send has not reported success. -/
theorem claim_C1 (cfg : Config) (uid : Nat) (o : Oracle) (ok : Bool)
    (h : MailboxEvent.deleted uid ok ∈ processMessage cfg uid o) :
    o.sendOk = true ∧
    ∃ m i j, i < j ∧
      (processMessage cfg uid o).get? i = some (MailboxEvent.sent m true) ∧
      (processMessage cfg uid o).get? j = some (MailboxEvent.deleted uid ok) ∧
      ∀ fok, MailboxEvent.flagsAdd uid fok ∉ processMessage cfg uid o := by
  cases hp : o.parsed with
  | none => simp [processMessage, hp] at h
  | some parsed =>
    by_cases hf : shouldForwardEmail cfg.allowedSenderDomains parsed = true
    · by_cases hs : o.sendOk = true
      · have htrace : processMessage cfg uid o =
            [MailboxEvent.sent (outboundOf cfg.forwardFrom cfg.forwardTo parsed) true,
             MailboxEvent.deleted uid o.deleteOk] := by
          simp [processMessage, hp, hf, hs]
        rw [htrace] at h
        have hok : ok = o.deleteOk := by simpa using h
        refine ⟨hs, outboundOf cfg.forwardFrom cfg.forwardTo parsed, 0, 1,
          by omega, ?_, ?_, ?_⟩
        · rw [htrace]; rfl
        · rw [htrace, hok]; rfl
        · intro fok
          rw [htrace]
          simp
      · have htrace : processMessage cfg uid o =
            [MailboxEvent.sent (outboundOf cfg.forwardFrom cfg.forwardTo parsed) false] := by
          simp [processMessage, hp, hf, hs]
        rw [htrace] at h
        simp at h
    · have htrace : processMessage cfg uid o = [MailboxEvent.flagsAdd uid o.flagOk] := by
        simp [processMessage, hp, hf]
      rw [htrace] at h
      simp at h

/-- Witness for claim C1 at a concrete configuration, message and set
of collaborator outcomes in which the delete is reached. -/
theorem claim_C1_witness :
    Oracle.sendOk ⟨some sampleParsed, true, true, true⟩ = true ∧
    ∃ m i j, i < j ∧
      (processMessage sampleCfg 7 ⟨some sampleParsed, true, true, true⟩).get? i =
        some (MailboxEvent.sent m true) ∧
      (processMessage sampleCfg 7 ⟨some sampleParsed, true, true, true⟩).get? j =
        some (MailboxEvent.deleted 7 true) ∧
      ∀ fok, MailboxEvent.flagsAdd 7 fok ∉
        processMessage sampleCfg 7 ⟨some sampleParsed, true, true, true⟩ :=
  claim_C1 sampleCfg 7 ⟨some sampleParsed, true, true, true⟩ true (by decide)
/-- Claim C2: a message whose relay send fails is neither deleted nor
marked seen; its mailbox state after the attempt is exactly as found,
and iterating the attempt any number of times against a persistently
failing relay still leaves it as found. -/
theorem claim_C2 (cfg : Config) (uid : Nat) (o : Oracle) (parsed : ParsedMail)
    (hp : o.parsed = some parsed)
    (hq : shouldForwardEmail cfg.allowedSenderDomains parsed = true)
    (hs : o.sendOk = false) :
    (∀ ok, MailboxEvent.deleted uid ok ∉ processMessage cfg uid o) ∧
    (∀ ok, MailboxEvent.flagsAdd uid ok ∉ processMessage cfg uid o) ∧
    msgStateAfter cfg uid o = initMsgState ∧
    ∀ n, (attemptStep cfg uid o)^[n] initMsgState = initMsgState := by
  have htrace : processMessage cfg uid o =
      [MailboxEvent.sent (outboundOf cfg.forwardFrom cfg.forwardTo parsed) false] := by
    simp [processMessage, hp, hq, hs]
  have hstep : ∀ s, attemptStep cfg uid o s = s := by
    intro s
    rw [attemptStep, htrace]
    rfl
  refine ⟨?_, ?_, ?_, ?_⟩
  · intro ok; rw [htrace]; simp
  · intro ok; rw [htrace]; simp
  · rw [msgStateAfter, htrace]; rfl
  · intro n
    exact Function.iterate_fixed (hstep initMsgState) n

/-- Witness for claim C2 at a concrete configuration and a concrete
message with a failing relay. -/
theorem claim_C2_witness :
    (∀ ok, MailboxEvent.deleted 7 ok ∉
      processMessage sampleCfg 7 ⟨some sampleParsed, false, true, true⟩) ∧
    (∀ ok, MailboxEvent.flagsAdd 7 ok ∉
      processMessage sampleCfg 7 ⟨some sampleParsed, false, true, true⟩) ∧
    msgStateAfter sampleCfg 7 ⟨some sampleParsed, false, true, true⟩ = initMsgState ∧
    ∀ n, (attemptStep sampleCfg 7 ⟨some sampleParsed, false, true, true⟩)^[n] initMsgState =
      initMsgState :=
  claim_C2 sampleCfg 7 ⟨some sampleParsed, false, true, true⟩ sampleParsed rfl (by decide) rfl

/-- Counterexample to claim C3: at a concrete qualifying message whose
send succeeds and whose delete then fails, the attempt's trace is just
the successful send followed by the failed delete — no `messageFlagsAdd`
fallback occurs, and the message ends the attempt still present and
still unseen (the `catch` in src/forward.ts:188-191 only logs and
leaves the message untouched). -/
theorem claim_C3_counterexample :
    processMessage sampleCfg 5 ⟨some sampleParsed, true, false, true⟩ =
      [MailboxEvent.sent (outboundOf "fwd@example.org" "dest@example.org" sampleParsed) true,
       MailboxEvent.deleted 5 false] ∧
    msgStateAfter sampleCfg 5 ⟨some sampleParsed, true, false, true⟩ = initMsgState ∧
    (msgStateAfter sampleCfg 5 ⟨some sampleParsed, true, false, true⟩).seen = false := by
  refine ⟨rfl, rfl, rfl⟩

/-- Amended claim C3: for every message whose relay send succeeded but
whose subsequent delete fails, the processor catches the error, does
not mark the message seen, and leaves it exactly as found (present and
unseen), so it may be re-forwarded by a later pass. -/
theorem claim_C3_amended (cfg : Config) (uid : Nat) (o : Oracle) (parsed : ParsedMail)
    (hp : o.parsed = some parsed)
    (hq : shouldForwardEmail cfg.allowedSenderDomains parsed = true)
    (hs : o.sendOk = true) (hd : o.deleteOk = false) :
    processMessage cfg uid o =
      [MailboxEvent.sent (outboundOf cfg.forwardFrom cfg.forwardTo parsed) true,
       MailboxEvent.deleted uid false] ∧
    (∀ ok, MailboxEvent.flagsAdd uid ok ∉ processMessage cfg uid o) ∧
    msgStateAfter cfg uid o = initMsgState := by
  have htrace : processMessage cfg uid o =
      [MailboxEvent.sent (outboundOf cfg.forwardFrom cfg.forwardTo parsed) true,
       MailboxEvent.deleted uid false] := by
    simp [processMessage, hp, hq, hs, hd]
  refine ⟨htrace, ?_, ?_⟩
  · intro ok; rw [htrace]; simp
  · rw [msgStateAfter, htrace]; rfl

/-- Witness for the amended claim C3 at a concrete message whose delete
fails after a successful send. -/
theorem claim_C3_amended_witness :
    processMessage sampleCfg 5 ⟨some sampleParsed, true, false, true⟩ =
      [MailboxEvent.sent (outboundOf sampleCfg.forwardFrom sampleCfg.forwardTo sampleParsed) true,
       MailboxEvent.deleted 5 false] ∧
    (∀ ok, MailboxEvent.flagsAdd 5 ok ∉
      processMessage sampleCfg 5 ⟨some sampleParsed, true, false, true⟩) ∧
    msgStateAfter sampleCfg 5 ⟨some sampleParsed, true, false, true⟩ = initMsgState :=
  claim_C3_amended sampleCfg 5 ⟨some sampleParsed, true, false, true⟩ sampleParsed rfl
    (by decide) rfl rfl

def emptySubjectMail : ParsedMail :=
  { fromValueAddress := some "alice@trusted.com"
    fromText := none
    subject := some ""
    text := some "body"
    html := none
    attachments := []
    toRecipients := [] }

/-- Counterexample to claim C5: a qualifying parsed message with an
empty (but present) subject is forwarded with the placeholder subject
`(no subject)` instead of its own subject, so the outbound subject is
not equal to the source subject. -/
theorem claim_C5_counterexample :
    shouldForwardEmail none emptySubjectMail = true ∧
    emptySubjectMail.subject = some "" ∧
    (outboundOf "fwd@example.org" "dest@example.org" emptySubjectMail).subject =
      "(no subject)" := by
  refine ⟨rfl, rfl, rfl⟩

/-- Amended claim C5: the outbound message's `from` is the configured
substituted address and its `to` the configured destination regardless
of the source message's recipients; the subject is preserved when
non-empty (the placeholder `(no subject)` is substituted for an absent
or empty subject), the text body is preserved whenever present, the
HTML body is preserved when present and non-empty, and every attachment
is preserved (filename and content, in order). -/
theorem claim_C5_amended (ffrom fto : String) (m : ParsedMail) :
    (outboundOf ffrom fto m).fromAddr = ffrom ∧
    (outboundOf ffrom fto m).toAddr = fto ∧
    (∀ s, m.subject = some s → s ≠ "" → (outboundOf ffrom fto m).subject = s) ∧
    ((m.subject = none ∨ m.subject = some "") →
      (outboundOf ffrom fto m).subject = "(no subject)") ∧
    (∀ t, m.text = some t → (outboundOf ffrom fto m).text = t) ∧
    (∀ h, m.html = some h → h ≠ "" → (outboundOf ffrom fto m).html = some h) ∧
    (outboundOf ffrom fto m).attachments =
      m.attachments.map (fun a => { filename := a.filename, content := a.content }) := by
  refine ⟨rfl, rfl, ?_, ?_, ?_, ?_, rfl⟩
  · intro s hsub hne
    simp [outboundOf, buildMailOptions, buildEmailArg, jsOrStr, hsub, hne]
  · intro hsub
    rcases hsub with hsub | hsub <;>
      simp [outboundOf, buildMailOptions, buildEmailArg, jsOrStr, hsub]
  · intro t htext
    by_cases hte : t = "" <;>
      simp [outboundOf, buildMailOptions, buildEmailArg, jsOrStr, htext, hte]
  · intro h hhtml hne
    simp [outboundOf, buildMailOptions, buildEmailArg, hhtml, hne]

/-- Witness for the amended claim C5 at a concrete parsed message. -/
theorem claim_C5_amended_witness :
    (outboundOf "fwd@example.org" "dest@example.org" sampleParsed).fromAddr =
      "fwd@example.org" ∧
    (outboundOf "fwd@example.org" "dest@example.org" sampleParsed).toAddr =
      "dest@example.org" ∧
    (outboundOf "fwd@example.org" "dest@example.org" sampleParsed).subject = "Hello" ∧
    (outboundOf "fwd@example.org" "dest@example.org" sampleParsed).text = "Hi there" ∧
    (outboundOf "fwd@example.org" "dest@example.org" sampleParsed).attachments =
      sampleParsed.attachments.map
        (fun a => { filename := a.filename, content := a.content }) := by
  obtain ⟨h1, h2, h3, _, h5, _, h7⟩ :=
    claim_C5_amended "fwd@example.org" "dest@example.org" sampleParsed
  exact ⟨h1, h2, h3 "Hello" rfl (by decide), h5 "Hi there" rfl, h7⟩
/-- Counterexample to claim C4: for the sender address `a@b@c.com` and
the allow-list parsed from `c.com`, the substring after the last `'@'`
(`c.com`) is a member of the allow-list, so the claim requires `true`,
but the code returns `false`: `split('@')[1]` (src/forward.ts:92) is
the segment after the first `'@'`, here `b`. -/
theorem claim_C4_counterexample :
    shouldForwardEmail (some "c.com") (mkFromAddr "a@b@c.com") = false ∧
    shouldForwardFrom "c.com" "a@b@c.com" = false ∧
    shouldForward_claimC4 "a@b@c.com" (some (parseAllowedDomains "c.com")) = true ∧
    "c.com" ∈ parseAllowedDomains "c.com" := by decide

/-- Amended claim C4: `shouldForwardEmail` on a sender address returns
true when the allow-list setting is absent or the empty string; returns
false when the address is empty or has no non-empty segment after the
first `'@'`; and otherwise returns true iff the case-folded segment
between the first `'@'` and the next `'@'` (or the end) is a member of
the parsed allow-list. -/
theorem claim_C4_amended (allowed : Option String) (addr : String) :
    shouldForwardEmail allowed (mkFromAddr addr) = shouldForward_amendedC4 allowed addr := by
  cases allowed with
  | none => rfl
  | some cfg =>
    by_cases hcfg : cfg = ""
    · subst hcfg; rfl
    · have : shouldForwardEmail (some cfg) (mkFromAddr addr) =
          shouldForwardFrom cfg (fromAddressOf (mkFromAddr addr)) := by
        simp [shouldForwardEmail, hcfg]
      rw [this, fromAddressOf_mkFromAddr]
      exact shouldForwardFrom_eq_amended cfg addr hcfg

/-- Claim C6: parsing the configured allow-list string
`Example.com, foo.org , ,BAR.net` yields exactly
`example.com`, `foo.org`, `bar.net`: entries trimmed, case-folded,
empties discarded. -/
theorem claim_C6 :
    parseAllowedDomains "Example.com, foo.org , ,BAR.net" =
      ["example.com", "foo.org", "bar.net"] := by decide

/-- Claim C7: when any required setting is missing, startup exits with
status 1 before any connection is attempted, and the diagnostic lists
every missing setting; the optional `ALLOWED_SENDER_DOMAINS` is not
required, and a configuration with all required settings present
proceeds regardless of it.  (As in the code, a variable set to the
empty string counts as missing, by JavaScript falsiness.) -/
theorem claim_C7 (env : String → Option String) (v : String)
    (hv : v ∈ requiredVars) (hmiss : env v = none) :
    startup env = StartupResult.exitBeforeConnect 1 (missingVars env) ∧
    v ∈ missingVars env ∧
    (∀ w, w ∈ requiredVars → env w = none → w ∈ missingVars env) ∧
    "ALLOWED_SENDER_DOMAINS" ∉ requiredVars ∧
    (∀ env2 : String → Option String,
      (∀ w, w ∈ requiredVars → jsTruthy (env2 w) = true) →
      startup env2 = StartupResult.proceedToConnect) := by
  have hmem : ∀ w, w ∈ requiredVars → env w = none → w ∈ missingVars env := by
    intro w hw hwnone
    simp [missingVars, List.mem_filter, hw, hwnone, jsTruthy]
  have hvmem : v ∈ missingVars env := hmem v hv hmiss
  refine ⟨?_, hvmem, hmem, by decide, ?_⟩
  · have hne : ¬ (missingVars env).isEmpty := by
      cases he : missingVars env with
      | nil => rw [he] at hvmem; simp at hvmem
      | cons a l => simp [he]
    simp [startup, hne]
  · intro env2 hall
    have : missingVars env2 = [] := by
      rw [missingVars, List.filter_eq_nil]
      intro w hw
      simp [hall w hw]
    simp [startup, this]

/-- Witness for claim C7: a configuration missing exactly
`SMTP_PASSWORD` exits with status 1 naming exactly that setting. -/
theorem claim_C7_witness :
    startup (fun v => if v = "SMTP_PASSWORD" then none else some "x") =
      StartupResult.exitBeforeConnect 1
        (missingVars (fun v => if v = "SMTP_PASSWORD" then none else some "x")) ∧
    "SMTP_PASSWORD" ∈
      missingVars (fun v => if v = "SMTP_PASSWORD" then none else some "x") ∧
    missingVars (fun v => if v = "SMTP_PASSWORD" then none else some "x") =
      ["SMTP_PASSWORD"] := by
  have h := claim_C7 (fun v => if v = "SMTP_PASSWORD" then none else some "x")
    "SMTP_PASSWORD" (by decide) (by simp)
  exact ⟨h.1, h.2.1, by decide⟩
/-- Invariant of the scheduler: the `busy` flag is set exactly while a
pass is in flight, so never more than one pass is in flight. -/
def daemonInv (s : DaemonState) : Prop :=
  s.running = (if s.busy then 1 else 0)

theorem daemonInv_step (s : DaemonState) (h : daemonInv s) (e : DaemonEvent) :
    daemonInv (daemonStep s e) := by
  unfold daemonInv at h ⊢
  cases e <;> simp only [daemonStep] <;> split <;> try exact h
  case timerFire =>
    split
    · exact h
    · split <;> simp_all
  case passComplete =>
    split
    · exact h
    · simp_all

theorem daemonInv_foldl (es : List DaemonEvent) (s : DaemonState)
    (h : daemonInv s) : daemonInv (es.foldl daemonStep s) := by
  induction es generalizing s with
  | nil => exact h
  | cons e es ih => exact ih (daemonStep s e) (daemonInv_step s h e)

theorem daemonInv_run (es : List DaemonEvent) : daemonInv (daemonRun es) :=
  daemonInv_foldl es daemonInit (by simp [daemonInv, daemonInit])

/-- Claim C8: in every reachable scheduler state in which a pass is
still running (the `busy` flag is set) while the daemon is live, exactly
one pass is in flight, and a timer trigger firing there performs no
processing: it only increments the dropped-trigger count, leaving the
running pass, the flag and the completion count unchanged. -/
theorem claim_C8 (es : List DaemonEvent)
    (hbusy : (daemonRun es).busy = true)
    (hlive : (daemonRun es).exited = none)
    (hta : (daemonRun es).timerActive = true) :
    (daemonRun es).running = 1 ∧
    daemonStep (daemonRun es) DaemonEvent.timerFire =
      { daemonRun es with dropped := (daemonRun es).dropped + 1 } := by
  have h1 : (daemonRun es).running = 1 := by
    have := daemonInv_run es
    rw [daemonInv, hbusy] at this
    simpa using this
  refine ⟨h1, ?_⟩
  simp [daemonStep, hlive, hta, hbusy]

/-- Witness for claim C8 at the reachable state in which the first
timer trigger has started a pass that has not yet completed. -/
theorem claim_C8_witness :
    (daemonRun [DaemonEvent.timerFire]).running = 1 ∧
    daemonStep (daemonRun [DaemonEvent.timerFire]) DaemonEvent.timerFire =
      { daemonRun [DaemonEvent.timerFire] with
          dropped := (daemonRun [DaemonEvent.timerFire]).dropped + 1 } :=
  claim_C8 [DaemonEvent.timerFire] (by decide) (by decide) (by decide)

/-- Counterexample to claim C9: in the reachable run where a pass
starts and a termination signal then arrives while it is in flight, the
process has exited (status 0) while the pass is still running and was
never completed — `shutdown` (src/forward.ts:251-255) clears the timer,
logs out and calls `process.exit` without waiting for the in-flight
attempt to reach a terminal state. -/
theorem claim_C9_counterexample :
    (daemonRun [DaemonEvent.timerFire, DaemonEvent.sigterm]).exited = some 0 ∧
    (daemonRun [DaemonEvent.timerFire, DaemonEvent.sigterm]).running = 1 ∧
    (daemonRun [DaemonEvent.timerFire, DaemonEvent.sigterm]).completed = 0 := by
  refine ⟨rfl, rfl, rfl⟩

/-- Amended claim C9: a termination signal arriving while the daemon is
live clears the poll timer (so no further pass starts) and exits the
process with status 0 immediately: the in-flight pass count is left
as it is, no completion is recorded for it, and no event after the
exit changes the scheduler state — an in-flight message attempt is
abandoned rather than awaited. -/
theorem claim_C9_amended (es : List DaemonEvent) (e : DaemonEvent)
    (hlive : (daemonRun es).exited = none) :
    (daemonStep (daemonRun es) DaemonEvent.sigterm).exited = some 0 ∧
    (daemonStep (daemonRun es) DaemonEvent.sigterm).timerActive = false ∧
    (daemonStep (daemonRun es) DaemonEvent.sigterm).running = (daemonRun es).running ∧
    (daemonStep (daemonRun es) DaemonEvent.sigterm).completed = (daemonRun es).completed ∧
    daemonStep (daemonStep (daemonRun es) DaemonEvent.sigterm) e =
      daemonStep (daemonRun es) DaemonEvent.sigterm := by
  have hstep : daemonStep (daemonRun es) DaemonEvent.sigterm =
      { daemonRun es with timerActive := false, exited := some 0 } := by
    simp [daemonStep, hlive]
  rw [hstep]
  refine ⟨rfl, rfl, rfl, rfl, ?_⟩
  cases e <;> simp [daemonStep]

/-- Witness for the amended claim C9 at the run in which the signal
arrives while the first pass is in flight. -/
theorem claim_C9_amended_witness :
    (daemonStep (daemonRun [DaemonEvent.timerFire]) DaemonEvent.sigterm).exited = some 0 ∧
    (daemonStep (daemonRun [DaemonEvent.timerFire]) DaemonEvent.sigterm).timerActive = false ∧
    (daemonStep (daemonRun [DaemonEvent.timerFire]) DaemonEvent.sigterm).running =
      (daemonRun [DaemonEvent.timerFire]).running ∧
    (daemonStep (daemonRun [DaemonEvent.timerFire]) DaemonEvent.sigterm).completed =
      (daemonRun [DaemonEvent.timerFire]).completed ∧
    daemonStep (daemonStep (daemonRun [DaemonEvent.timerFire]) DaemonEvent.sigterm)
        DaemonEvent.timerFire =
      daemonStep (daemonRun [DaemonEvent.timerFire]) DaemonEvent.sigterm :=
  claim_C9_amended [DaemonEvent.timerFire] DaemonEvent.timerFire (by decide)

/-- Counterexample to claim C10: the allow-list setting present but
equal to the empty string has every comma-separated entry trimming to
empty (the effective parsed list is empty), yet `shouldForwardEmail`
returns `true` for a sender with a valid domain: the guard
`if (!ALLOWED_SENDER_DOMAINS)` (src/forward.ts:79) treats the empty
string like an absent setting. -/
theorem claim_C10_counterexample :
    parseAllowedDomains "" = [] ∧
    shouldForwardEmail (some "") (mkFromAddr "a@example.com") = true := by decide

/-- Amended claim C10: when the allow-list setting is present and not
the empty string but every entry trims to empty (so the effective
parsed list is empty), `shouldForwardEmail` returns false for every
sender — unlike the absent setting, under which every sender is
accepted. -/
theorem claim_C10_amended (cfg : String) (m : ParsedMail)
    (hne : cfg ≠ "") (hempty : parseAllowedDomains cfg = []) :
    shouldForwardEmail (some cfg) m = false ∧
    shouldForwardEmail none m = true := by
  refine ⟨?_, rfl⟩
  have : shouldForwardEmail (some cfg) m = shouldForwardFrom cfg (fromAddressOf m) := by
    simp [shouldForwardEmail, hne]
  rw [this]
  by_cases hfa : fromAddressOf m = ""
  · simp [shouldForwardFrom, hfa]
  · rw [shouldForwardFrom, if_neg hfa]
    cases hseg : ((jsSplit '@' (fromAddressOf m)).get? 1).map jsToLower with
    | none => rfl
    | some d =>
      by_cases hd : d = ""
      · simp [hd]
      · simp [hd, hempty]

/-- Witness for the amended claim C10 with the setting `" ,"` (upon
parsing, an empty allow-list). -/
theorem claim_C10_amended_witness :
    shouldForwardEmail (some " ,") (mkFromAddr "a@example.com") = false ∧
    shouldForwardEmail none (mkFromAddr "a@example.com") = true :=
  claim_C10_amended " ," (mkFromAddr "a@example.com") (by decide) (by decide)
